import Mathlib

/-!
Shallow embedding of `wiki_dump_reader.py` (streaming wiki-dump page extractor).

The source is Python 2.  Lines of the input stream are byte strings; the code
tracks byte offsets with `len(line)` *before* `line.decode('utf-8')` and does
all pattern matching on the decoded text.  We model an input line as a pair of
its raw byte length and its decoded character sequence; decoded text is
`List Char` (Python unicode, one element per code point).

`page_length_limit` is imported by the source from the external `indexer`
module (configuration not present in the repository sources); following the
spec it is "an externally configured threshold", so it is threaded through as
an explicit parameter everywhere.

Python `.upper()` is modelled with `Char.toUpper` (ASCII case mapping); every
deny-list term in the module configuration is ASCII.
-/

/-- One line of the input stream: `byteLen` is `len(line)` of the raw byte
string (used for offset bookkeeping), `text` is the decoded unicode text
(used for all pattern matching).  Python file iteration keeps the trailing
newline inside the line. -/
structure Line where
  byteLen : Nat
  text : List Char
deriving DecidableEq, Repr

/-- Build a `Line` from its decoded text, with `byteLen` equal to the number
of characters (exact for ASCII inputs; the concrete inputs below are ASCII). -/
def lineOf (t : List Char) : Line := ⟨t.length, t⟩

/-- Sum of the raw byte lengths of a list of lines. -/
def byteSum (ls : List Line) : Nat := (ls.map Line.byteLen).sum

/-- Python `l[-n:]`: the last `n` elements, or the whole list when it is
shorter than `n` (Python slicing never raises). -/
def takeLast (n : Nat) (l : List Char) : List Char := l.drop (l.length - n)

/-- Python `pat in s` for strings: `pat` occurs as a contiguous run of `s`. -/
def occursIn (pat : List Char) : List Char → Bool
  | [] => pat.isEmpty
  | c :: rest => pat.isPrefixOf (c :: rest) || occursIn pat rest

/-- The extracted record: `Page(ID, title, text, start)` from the source.
The downstream mutable fields (`paragraphs`, `token_count`, `cosine_sim`)
belong to the out-of-scope processing stage and are not modelled. -/
structure Page where
  ID : Nat
  title : List Char
  text : List Char
  start : Option Nat
deriving DecidableEq, Repr

/-! ## Rejection filter (`bad_page`)

Module configuration, transcribed from the Python module-level expressions:
`'User: Wikipedia: File: MediaWiki: Template: Help: Category: Portal: Book: '
'28644448 Help:'.upper().split(' ')` and friends. -/

def title_start_with_terms : List (List Char) :=
  ["USER:".toList, "WIKIPEDIA:".toList, "FILE:".toList, "MEDIAWIKI:".toList,
   "TEMPLATE:".toList, "HELP:".toList, "CATEGORY:".toList, "PORTAL:".toList,
   "BOOK:".toList, "28644448".toList, "HELP:".toList]

def title_end_with_terms : List (List Char) := ["(DISAMBIGUATION)".toList]

def text_start_with_terms : List (List Char) :=
  ["#REDIRECT".toList, "\x7b\x7bSOFTREDIRECT".toList]

def text_last_terms : List (List Char) :=
  ["\x7b\x7bDISAMB".toList, "\x7b\x7bDAB".toList, "STUB\x7d\x7d".toList]

/-- `title[:len(term)].upper() == term` — the per-term comparison of the
title-prefix deny rule.  The slice is bounded by the term's length. -/
def prefixMatch (term title : List Char) : Bool :=
  (title.take term.length).map Char.toUpper == term

/-- `title[-len(term):].upper() == term` — the per-term comparison of the
title-suffix deny rule. -/
def suffixMatch (term title : List Char) : Bool :=
  (takeLast term.length title).map Char.toUpper == term

/-- First loop of `bad_page`: title starts with a deny-listed prefix. -/
def titleStartRule (title : List Char) : Bool :=
  title_start_with_terms.any (fun term => prefixMatch term title)

/-- Second loop of `bad_page`: title ends with a deny-listed suffix. -/
def titleEndRule (title : List Char) : Bool :=
  title_end_with_terms.any (fun term => suffixMatch term title)

/-- `len(text) <= page_length_limit` — the minimum-length rejection rule. -/
def lengthRule (page_length_limit : Nat) (text : List Char) : Bool :=
  decide (text.length ≤ page_length_limit)

/-- Third loop of `bad_page`: `term == text[:len(term)].upper()`. -/
def textStartRule (text : List Char) : Bool :=
  text_start_with_terms.any (fun term => term == (text.take term.length).map Char.toUpper)

/-- Fourth loop of `bad_page`: `term in text[-8000:].upper()`. -/
def textLastRule (text : List Char) : Bool :=
  text_last_terms.any (fun term => occursIn term ((takeLast 8000 text).map Char.toUpper))

/-- `bad_page(title, text)` from the source: any rule rejecting suffices
(the Python loops return `True` on the first match; `||` short-circuits the
same way). -/
def bad_page (page_length_limit : Nat) (title text : List Char) : Bool :=
  titleStartRule title || titleEndRule title || lengthRule page_length_limit text ||
    textStartRule text || textLastRule text

/-! ## Line matchers

These model the `re.search` calls of `page_generator`.  Python `re` defaults:
`.` does not match a newline, character classes such as `[^>]` do. -/

/-- The scan of `(.*?)close` at a fixed start position: capture everything up
to the *first* occurrence of `close` (non-greedy), failing if a newline or the
end of the line is reached first (`.` does not match `'\n'`). -/
def captureTo (close : List Char) : List Char → Option (List Char)
  | [] => none
  | c :: rest =>
    if close.isPrefixOf (c :: rest) then some []
    else if c = '\n' then none
    else (captureTo close rest).map (fun l => c :: l)

/-- `re.search(r'open(.*?)close', line).group(1)` for literal `open`/`close`:
leftmost start where `open` matches and a capture to `close` succeeds. -/
def tagCapture (openTag close : List Char) : List Char → Option (List Char)
  | [] => none
  | c :: rest =>
    if openTag.isPrefixOf (c :: rest) then
      match captureTo close (List.drop openTag.length (c :: rest)) with
      | some cap => some cap
      | none => tagCapture openTag close rest
    else tagCapture openTag close rest

/-- `re.search(r'<id>(\d+)</id>', line)`: leftmost `<id>` followed by a
nonempty digit run followed immediately by `</id>` (backtracking inside the
digit run cannot create other matches, since shortening the run leaves a digit
where `<` would have to be). -/
def idCapture : List Char → Option (List Char)
  | [] => none
  | c :: rest =>
    if "<id>".toList.isPrefixOf (c :: rest) then
      let after := List.drop 4 (c :: rest)
      let ds := after.takeWhile Char.isDigit
      if ds.isEmpty then idCapture rest
      else if "</id>".toList.isPrefixOf (after.drop ds.length) then some ds
      else idCapture rest
    else idCapture rest

/-- Scan for the first `'>'`, failing at a newline — the `.*?>` part of
`re.search(r'<text.*?>', line)`; returns what follows the `'>'`. -/
def scanToGt : List Char → Option (List Char)
  | [] => none
  | c :: rest => if c = '>' then some rest else if c = '\n' then none else scanToGt rest

/-- Scan for the first `'>'`, newlines allowed — the `[^>]*>` part of
`re.search(r'<text[^>]*>(.*?)</text>', line)` (a negated class matches
newlines); returns what follows the `'>'`. -/
def scanToGtAnyNl : List Char → Option (List Char)
  | [] => none
  | c :: rest => if c = '>' then some rest else scanToGtAnyNl rest

/-- `line[m.end():]` for `m = re.search(r'<text.*?>', line)`: everything after
the leftmost text-opening tag, `none` when the pattern does not match. -/
def afterTextOpen : List Char → Option (List Char)
  | [] => none
  | c :: rest =>
    if "<text".toList.isPrefixOf (c :: rest) then
      match scanToGt (List.drop 5 (c :: rest)) with
      | some rem => some rem
      | none => afterTextOpen rest
    else afterTextOpen rest

/-- `re.search(r'<text[^>]*>(.*?)</text>', line).group(1)`: leftmost start
where the whole pattern matches; at each start the opening tag ends at the
first `'>'` (no other choice exists for `[^>]*>`) and the capture runs to the
first `</text>` after it. -/
def inlineTextCapture : List Char → Option (List Char)
  | [] => none
  | c :: rest =>
    if "<text".toList.isPrefixOf (c :: rest) then
      match scanToGtAnyNl (List.drop 5 (c :: rest)) with
      | some rem =>
        match captureTo "</text>".toList rem with
        | some cap => some cap
        | none => inlineTextCapture rest
      | none => inlineTextCapture rest
    else inlineTextCapture rest

/-- `int(s)` applied to a captured `\d+` digit string. -/
def digitsToNat (l : List Char) : Nat :=
  l.foldl (fun a c => 10 * a + (c.toNat - 48)) 0

/-! ## Page assembly state machine (`page_generator`) -/

/-- The state of the per-line machine.  In the source these are the values of
the `state` variable (`None`, `'page'`, `'title'`, `'id'`, `'text'`) together
with the variables already captured for the page in progress; the source
overwrites `title`/`ID`/`text` on every matching attempt, so stale values from
an earlier page never survive into a later transition. -/
inductive PState where
  | idle
  | sawPage (start : Nat)
  | sawTitle (start : Nat) (title : List Char)
  | sawId (start : Nat) (title : List Char) (id : List Char)
  | accText (start : Nat) (title : List Char) (id : List Char) (frags : List (List Char))
deriving DecidableEq, Repr

/-- The `state == 'done'` block: run `bad_page` and either drop the candidate
or yield `Page(int(ID), title, text, start)`; the machine resets to idle. -/
def finalize (page_length_limit : Nat) (start : Nat) (title id body : List Char) :
    PState × Option Page :=
  (.idle,
   if bad_page page_length_limit title body then none
   else some ⟨digitsToNat id, title, body, some start⟩)

/-- One iteration of the `for line in file_obj` loop body, after the offset
bookkeeping and decoding: `none` models the `AttributeError` raised by
`re.search(r'<text[^>]*>(.*?)</text>', line).group(1)` when the line (in state
`'id'`) ends with `'</text>\n'` but the pattern has no match. -/
def lineStep (page_length_limit : Nat) (s : PState) (line : List Char) (pos : Nat) :
    Option (PState × Option Page) :=
  match s with
  | .idle =>
    if occursIn "<page>".toList line then some (.sawPage pos, none)
    else some (.idle, none)
  | .sawPage start =>
    match tagCapture "<title>".toList "</title>".toList line with
    | some t => some (.sawTitle start t, none)
    | none => some (.sawPage start, none)
  | .sawTitle start t =>
    match idCapture line with
    | some i => some (.sawId start t i, none)
    | none => some (.sawTitle start t, none)
  | .sawId start t i =>
    if "</text>\n".toList.isSuffixOf line then
      match inlineTextCapture line with
      | some body => some (finalize page_length_limit start t i body)
      | none => none
    else
      match afterTextOpen line with
      | some rem => some (.accText start t i [rem], none)
      | none => some (.sawId start t i, none)
  | .accText start t i frags =>
    if "</text>\n".toList.isSuffixOf line then
      some (finalize page_length_limit start t i
        ((frags ++ [line.take (line.length - 8)]).flatten))
    else some (.accText start t i (frags ++ [line]), none)

/-- The outcome of running the generator to exhaustion: the records yielded in
order, and whether the run ended by raising (`err = true`) rather than by
reaching the end of the stream. -/
structure GenResult where
  out : List Page
  err : Bool
deriving DecidableEq, Repr

/-- The loop of `page_generator`, with the machine state and the running
`next_pos` made explicit: `pos = next_pos; next_pos += len(line)` on each
line, `len(line)` being the raw byte length before decoding.  A raise stops
consumption; records already yielded stand. -/
def runFrom (page_length_limit : Nat) : PState → Nat → List Line → GenResult
  | _, _, [] => ⟨[], false⟩
  | s, nextPos, l :: rest =>
    match lineStep page_length_limit s l.text nextPos with
    | none => ⟨[], true⟩
    | some (s', em) =>
      let r := runFrom page_length_limit s' (nextPos + l.byteLen) rest
      ⟨em.toList ++ r.out, r.err⟩

/-- `page_generator(file_obj, offset=None)`: the `offset` parameter is
accepted and never read; position tracking starts from `pos = next_pos = 0`
and the machine starts with `state = None`. -/
def page_generator (page_length_limit : Nat) (lines : List Line)
    (offset : Option Nat) : GenResult :=
  runFrom page_length_limit .idle 0 lines

/-! ## Alternate producer (`plain_page_generator`) -/

/-- Python `line.split('\t')`: split on every tab; always at least one
field. -/
def splitTab : List Char → List (List Char)
  | [] => [[]]
  | c :: rest =>
    if c = '\t' then [] :: splitTab rest
    else
      match splitTab rest with
      | [] => [[c]]
      | g :: gs => (c :: g) :: gs

/-- `int(s)` in the alternate producer, where the field is arbitrary input:
fails (raises) unless the field is a nonempty digit string.  (Python `int`
also accepts signs and surrounding whitespace; no theorem below depends on
those forms.) -/
def parseNatDigits (l : List Char) : Option Nat :=
  if l.isEmpty then none
  else if l.all Char.isDigit then some (digitsToNat l) else none

/-- One iteration of `plain_page_generator`'s loop body:
`ID, title, text = line.split('\t')` raises unless the split has exactly
three fields; then `Page(int(ID), title, text, pos)` is yielded. -/
def plainStep (line : List Char) (pos : Nat) : Option Page :=
  match splitTab line with
  | [i, t, x] =>
    match parseNatDigits i with
    | some n => some ⟨n, t, x, some pos⟩
    | none => none
  | _ => none

/-- The loop of `plain_page_generator` with `next_pos` explicit; a raise stops
consumption. -/
def plainRunFrom : Nat → List Line → GenResult
  | _, [] => ⟨[], false⟩
  | nextPos, l :: rest =>
    match plainStep l.text nextPos with
    | none => ⟨[], true⟩
    | some p =>
      let r := plainRunFrom (nextPos + l.byteLen) rest
      ⟨p :: r.out, r.err⟩

/-- `plain_page_generator(file_obj)`. -/
def plain_page_generator (lines : List Line) : GenResult :=
  plainRunFrom 0 lines

/-! ## Spec-side state machine (refinement reference for C1)

The spec (§4.2) describes the same per-line transition rules that
`page_generator` implements, with one behavioural difference: the spec never
raises.  Its error taxonomy (§7) says a malformed or incomplete page is
"silently dropped — no record yielded, no diagnostic raised", and the
`SAW_ID` rule says "if neither [marker] is found, remain in `SAW_ID`".  The
code instead raises (`.group(1)` on a failed search) whenever a line consumed
in state `'id'` ends with `'</text>\n'` but `<text[^>]*>(.*?)</text>` has no
match.  `specLineStep` below transcribes §4.2 branch by branch; where §4.2 is
ambiguous (which closing occurrence "everything between them" stops at, the
order in which the two markers are tested) it is resolved the way the code
resolves it, since the spec was written from the code; the sole deliberate
difference from `lineStep` is the no-raise branch. -/

/-- §4.2 transition rules, one input line at a time.  Identical to `lineStep`
except that a `SAW_ID` line ending with the closing marker but containing no
matchable inline text element leaves the machine in `SAW_ID` (spec: remain /
silently drop) instead of raising. -/
def specLineStep (page_length_limit : Nat) (s : PState) (line : List Char) (pos : Nat) :
    PState × Option Page :=
  match s with
  | .idle =>
    if occursIn "<page>".toList line then (.sawPage pos, none)
    else (.idle, none)
  | .sawPage start =>
    match tagCapture "<title>".toList "</title>".toList line with
    | some t => (.sawTitle start t, none)
    | none => (.sawPage start, none)
  | .sawTitle start t =>
    match idCapture line with
    | some i => (.sawId start t i, none)
    | none => (.sawTitle start t, none)
  | .sawId start t i =>
    if "</text>\n".toList.isSuffixOf line then
      match inlineTextCapture line with
      | some body => finalize page_length_limit start t i body
      | none => (.sawId start t i, none)
    else
      match afterTextOpen line with
      | some rem => (.accText start t i [rem], none)
      | none => (.sawId start t i, none)
  | .accText start t i frags =>
    if "</text>\n".toList.isSuffixOf line then
      finalize page_length_limit start t i
        ((frags ++ [line.take (line.length - 8)]).flatten)
    else (.accText start t i (frags ++ [line]), none)

/-- The spec-side producer: filter-accepted complete pages of the stream, in
order, per the §4.2 machine — total, never raises. -/
def specRunFrom (page_length_limit : Nat) : PState → Nat → List Line → List Page
  | _, _, [] => []
  | s, nextPos, l :: rest =>
    let r := specLineStep page_length_limit s l.text nextPos
    r.2.toList ++ specRunFrom page_length_limit r.1 (nextPos + l.byteLen) rest

/-- The spec-side record sequence for a whole stream. -/
def spec_page_generator (page_length_limit : Nat) (lines : List Line) : List Page :=
  specRunFrom page_length_limit .idle 0 lines

/-- The `startOffset` the machine is holding for the page in progress
(`none` when no page is open). -/
def pendingStart : PState → Option Nat
  | .idle => none
  | .sawPage s => some s
  | .sawTitle s _ => some s
  | .sawId s _ _ => some s
  | .accText s _ _ _ => some s

/-! ## Concrete inputs used by counterexamples and witnesses -/

/-- A junk line followed by one well-formed, filter-accepted page. -/
def exGood : List Line :=
  ["junk\n", "<page>\n", "<title>B</title>\n", "<id>2</id>\n",
   "<text>hello</text>\n"].map (fun s => lineOf s.toList)

/-- A page whose fourth line ends with `'</text>\n'` in state `'id'` without
containing a text-opening tag: the code raises there, so the complete page
that would finish on the fifth line is never considered. -/
def exCrash : List Line :=
  ["<page>\n", "<title>A</title>\n", "<id>1</id>\n", "x</text>\n",
   "<text>hello</text>\n"].map (fun s => lineOf s.toList)

/-- A page whose text field is split across three lines. -/
def exMulti : List Line :=
  ["<page>\n", "<title>T</title>\n", "<id>7</id>\n", "<text>ab\n", "mid\n",
   "cd</text>\n"].map (fun s => lineOf s.toList)

/-- The same text content presented inline on a single line (the content
spans lines, so the inline line carries embedded newlines). -/
def exInline : List Line :=
  ["<page>\n", "<title>T</title>\n", "<id>7</id>\n",
   "<text>ab\nmid\ncd</text>\n"].map (fun s => lineOf s.toList)

/-- A complete page block whose final line lacks the trailing newline. -/
def exNoFinalNl : List Line :=
  ["<page>\n", "<title>T</title>\n", "<id>1</id>\n",
   "<text>hello</text>"].map (fun s => lineOf s.toList)

/-! ## Theorems -/

/-- Claim C3, counterexample: in state `SAW_ID`, the line `"x</text>\n"`
contains no text-opening marker, yet the machine does not remain in `SAW_ID`
without error — it raises (the claim asserts no error is ever raised when the
opening marker is absent). -/
theorem c3_counterexample :
    afterTextOpen "x</text>\n".toList = none ∧
      lineStep 0 (.sawId 0 ['A'] ['1']) "x</text>\n".toList 0 = none := by
  decide

/-- Claim C3, amended: in state `SAW_ID`, a line that does not end with the
closing marker `'</text>\n'` and in which the text-opening marker is not
found leaves the machine in `SAW_ID` with nothing yielded and no error. -/
theorem c3_amended_remains_in_saw_id (page_length_limit start : Nat)
    (t i line : List Char) (pos : Nat)
    (h1 : "</text>\n".toList.isSuffixOf line = false)
    (h2 : afterTextOpen line = none) :
    lineStep page_length_limit (.sawId start t i) line pos =
      some (.sawId start t i, none) := by
  simp only [lineStep]
  rw [h1, h2]
  simp

/-- Claim C3, witness: a blank-ish attribute line between the id field and
the text open is tolerated. -/
theorem c3_witness :
    lineStep 0 (.sawId 0 ['A'] ['1']) "  junk\n".toList 0 =
      some (.sawId 0 ['A'] ['1'], none) :=
  c3_amended_remains_in_saw_id 0 0 ['A'] ['1'] "  junk\n".toList 0
    (by decide) (by decide)

/-- Claim C4, counterexample: feeding `"42\tSample\tHello world\n"` to the
alternate producer does not yield a record with `rawText = "Hello world"` —
`split('\t')` keeps the trailing newline in the third field. -/
theorem c4_counterexample :
    (plain_page_generator [lineOf "42\tSample\tHello world\n".toList]).out ≠
      [⟨42, "Sample".toList, "Hello world".toList, some 0⟩] := by
  decide

/-- Claim C4, amended: the single line `"42\tSample\tHello world\n"` yields
exactly one record with `id = 42`, `title = "Sample"`,
`rawText = "Hello world\n"` (the trailing newline is retained — nothing in
the alternate producer strips the line terminator), and `startOffset = 0`,
the byte offset at the start of that line. -/
theorem c4_amended_tab_mode_record :
    plain_page_generator [lineOf "42\tSample\tHello world\n".toList] =
      ⟨[⟨42, "Sample".toList, "Hello world\n".toList, some 0⟩], false⟩ := by
  decide

/-- Claim C5: `bad_page` returns `True` whenever the text's length is at most
`page_length_limit` (whatever the title), and the minimum-length rule itself
does not reject a text of length `page_length_limit + 1`. -/
theorem c5_length_boundary (page_length_limit : Nat) (title text text2 : List Char) :
    (text.length ≤ page_length_limit → bad_page page_length_limit title text = true) ∧
      (text2.length = page_length_limit + 1 → lengthRule page_length_limit text2 = false) := by
  constructor
  · intro h
    simp [bad_page, lengthRule, h]
  · intro h
    simp only [lengthRule, h, decide_eq_false_iff_not]
    omega

/-- Claim C5, witness: at `page_length_limit = 3`, a 3-character text is
rejected and a 4-character text passes the length rule. -/
theorem c5_witness :
    ("abc".toList.length ≤ 3 ∧ "abcd".toList.length = 3 + 1) ∧
      bad_page 3 "t".toList "abc".toList = true ∧
        lengthRule 3 "abcd".toList = false :=
  ⟨by decide,
   (c5_length_boundary 3 "t".toList "abc".toList "abcd".toList).1 (by decide),
   (c5_length_boundary 3 "t".toList "abc".toList "abcd".toList).2 (by decide)⟩

/-- Claim C7: the deny-list comparisons are bounded by the term's length — a
title strictly shorter than a term never matches it, neither as a prefix nor
as a suffix (Python's sliced comparison cannot raise), so the loops in
`bad_page` just move on to the next term. -/
theorem c7_short_title_never_matches (term title : List Char)
    (h : title.length < term.length) :
    prefixMatch term title = false ∧ suffixMatch term title = false := by
  constructor
  · simp only [prefixMatch, beq_eq_false_iff_ne]
    intro e
    have hl := congrArg List.length e
    simp [List.length_take] at hl
    omega
  · have h0 : title.length - term.length = 0 := by omega
    simp only [suffixMatch, takeLast, h0, List.drop_zero, beq_eq_false_iff_ne]
    intro e
    have hl := congrArg List.length e
    simp at hl
    omega

/-- Claim C7, witness: the two-character title `"AB"` matches neither
`"USER:"`-style prefixes nor the disambiguation suffix term. -/
theorem c7_witness :
    "AB".toList.length < "USER:".toList.length ∧
      prefixMatch "USER:".toList "AB".toList = false ∧
        suffixMatch "USER:".toList "AB".toList = false :=
  ⟨by decide, c7_short_title_never_matches "USER:".toList "AB".toList (by decide)⟩

/-- Claim C9: `page_generator`'s output is independent of its `offset`
argument — the parameter is accepted and never read, and offset tracking
always starts from position 0. -/
theorem c9_offset_independent (page_length_limit : Nat) (lines : List Line)
    (o1 o2 : Option Nat) :
    page_generator page_length_limit lines o1 =
      page_generator page_length_limit lines o2 := rfl

theorem plainStep_none_of_not_three (line : List Char) (pos : Nat)
    (h : (splitTab line).length ≠ 3) : plainStep line pos = none := by
  unfold plainStep
  split
  · next i t x heq => exact absurd (by simp [heq]) h
  · rfl

theorem plainRunFrom_err_of_bad (lines : List Line) :
    ∀ (base k : Nat) (hk : k < lines.length),
      (splitTab (lines.get ⟨k, hk⟩).text).length ≠ 3 →
        (plainRunFrom base lines).err = true ∧
          (plainRunFrom base lines).out.length ≤ k := by
  induction lines with
  | nil => intro base k hk; simp at hk
  | cons l rest ih =>
    intro base k hk hbad
    match k with
    | 0 =>
      have h0 : plainStep l.text base = none :=
        plainStep_none_of_not_three _ _ hbad
      simp [plainRunFrom, h0]
    | k' + 1 =>
      cases hstep : plainStep l.text base with
      | none => simp [plainRunFrom, hstep]
      | some p =>
        obtain ⟨e1, e2⟩ := ih (base + l.byteLen) k'
          (by simpa using Nat.lt_of_succ_lt_succ hk) (by simpa using hbad)
        simp [plainRunFrom, hstep, e1]
        omega

/-- Claim C8: in alternate mode, any input line that does not split into
exactly three tab-delimited fields makes `plain_page_generator` raise (the
error propagates, the run ends with `err = true`) and no record is yielded
for that line (at most one record per preceding line). -/
theorem c8_malformed_line_raises (lines : List Line) (k : Nat)
    (hk : k < lines.length)
    (hbad : (splitTab (lines.get ⟨k, hk⟩).text).length ≠ 3) :
    (plain_page_generator lines).err = true ∧
      (plain_page_generator lines).out.length ≤ k :=
  plainRunFrom_err_of_bad lines 0 k hk hbad

/-- Claim C8, witness: a tab-less line makes the alternate producer raise
immediately, with nothing yielded. -/
theorem c8_witness :
    (plain_page_generator [lineOf "ab\n".toList]).err = true ∧
      (plain_page_generator [lineOf "ab\n".toList]).out.length ≤ 0 :=
  c8_malformed_line_raises [lineOf "ab\n".toList] 0 (by decide) (by decide)

/-- Claim C10: a page is completed (a candidate emitted) only on a line
terminated by `'</text>'` immediately followed by a newline — every emitting
transition of the machine happens on a line with that suffix; consequently a
stream whose final line ends with `'</text>'` but lacks the trailing newline
leaves the page in progress unfinished, dropped at end-of-stream without
being yielded and without error (second conjunct, on `exNoFinalNl`). -/
theorem c10_completion_requires_close_newline :
    (∀ (pll : Nat) (s : PState) (line : List Char) (pos : Nat) (s' : PState)
        (em : Option Page), lineStep pll s line pos = some (s', em) →
        em.isSome = true → "</text>\n".toList.isSuffixOf line = true) ∧
      page_generator 0 exNoFinalNl none = ⟨[], false⟩ := by
  constructor
  · intro pll s line pos s' em h hem
    cases s with
    | idle =>
      simp only [lineStep, Option.some.injEq, Prod.mk.injEq] at h
      split at h <;> (obtain ⟨-, rfl⟩ := h; simp at hem)
    | sawPage start =>
      simp only [lineStep, Option.some.injEq, Prod.mk.injEq] at h
      split at h <;> (obtain ⟨-, rfl⟩ := h; simp at hem)
    | sawTitle start t =>
      simp only [lineStep, Option.some.injEq, Prod.mk.injEq] at h
      split at h <;> (obtain ⟨-, rfl⟩ := h; simp at hem)
    | sawId start t i =>
      simp only [lineStep] at h
      split at h
      · assumption
      · split at h <;>
          (simp only [Option.some.injEq, Prod.mk.injEq] at h;
            obtain ⟨-, rfl⟩ := h; simp at hem)
    | accText start t i frags =>
      simp only [lineStep] at h
      split at h
      · assumption
      · simp only [Option.some.injEq, Prod.mk.injEq] at h
        obtain ⟨-, rfl⟩ := h
        simp at hem
  · decide

/-- Claim C10, witness: an emitting step on the line `"x</text>\n"` does end
with the closing marker plus newline. -/
theorem c10_witness :
    "</text>\n".toList.isSuffixOf "x</text>\n".toList = true :=
  c10_completion_requires_close_newline.1 0
    (.accText 0 "T".toList "1".toList []) "x</text>\n".toList 0 .idle
    (some ⟨1, "T".toList, "x".toList, some 0⟩) (by decide) (by decide)

theorem lineStep_emit_start (pll : Nat) (s : PState) (line : List Char)
    (pos : Nat) (s' : PState) (p : Page)
    (h : lineStep pll s line pos = some (s', some p)) :
    pendingStart s = p.start ∧ s ≠ .idle := by
  cases s with
  | idle =>
    simp only [lineStep, Option.some.injEq, Prod.mk.injEq] at h
    split at h <;> simp at h
  | sawPage start =>
    simp only [lineStep, Option.some.injEq, Prod.mk.injEq] at h
    split at h <;> simp at h
  | sawTitle start t =>
    simp only [lineStep, Option.some.injEq, Prod.mk.injEq] at h
    split at h <;> simp at h
  | sawId start t i =>
    simp only [lineStep, finalize] at h
    split at h
    · split at h
      · simp only [Option.some.injEq, Prod.mk.injEq] at h
        obtain ⟨-, h2⟩ := h
        split at h2
        · simp at h2
        · simp only [Option.some.injEq] at h2
          subst h2
          simp [pendingStart]
      · simp at h
    · split at h <;> simp at h
  | accText start t i frags =>
    simp only [lineStep, finalize] at h
    split at h
    · simp only [Option.some.injEq, Prod.mk.injEq] at h
      obtain ⟨-, h2⟩ := h
      split at h2
      · simp at h2
      · simp only [Option.some.injEq] at h2
        subst h2
        simp [pendingStart]
    · simp at h

theorem lineStep_state_start (pll : Nat) (s : PState) (line : List Char)
    (pos : Nat) (s' : PState) (em : Option Page)
    (h : lineStep pll s line pos = some (s', em)) (hne : s' ≠ .idle) :
    (pendingStart s' = pendingStart s ∧ s ≠ .idle) ∨
      (s = .idle ∧ pendingStart s' = some pos ∧
        occursIn "<page>".toList line = true) := by
  cases s with
  | idle =>
    simp only [lineStep, Option.some.injEq, Prod.mk.injEq] at h
    split at h
    · obtain ⟨rfl, -⟩ := h
      right
      exact ⟨rfl, rfl, by assumption⟩
    · obtain ⟨rfl, -⟩ := h
      exact absurd rfl hne
  | sawPage start =>
    simp only [lineStep, Option.some.injEq, Prod.mk.injEq] at h
    split at h <;> (obtain ⟨rfl, -⟩ := h; exact Or.inl ⟨rfl, by simp⟩)
  | sawTitle start t =>
    simp only [lineStep, Option.some.injEq, Prod.mk.injEq] at h
    split at h <;> (obtain ⟨rfl, -⟩ := h; exact Or.inl ⟨rfl, by simp⟩)
  | sawId start t i =>
    simp only [lineStep, finalize] at h
    split at h
    · split at h
      · simp only [Option.some.injEq, Prod.mk.injEq] at h
        obtain ⟨rfl, -⟩ := h
        exact absurd rfl hne
      · simp at h
    · split at h <;>
        (simp only [Option.some.injEq, Prod.mk.injEq] at h;
          obtain ⟨rfl, -⟩ := h; exact Or.inl ⟨rfl, by simp⟩)
  | accText start t i frags =>
    simp only [lineStep, finalize] at h
    split at h
    · simp only [Option.some.injEq, Prod.mk.injEq] at h
      obtain ⟨rfl, -⟩ := h
      exact absurd rfl hne
    · simp only [Option.some.injEq, Prod.mk.injEq] at h
      obtain ⟨rfl, -⟩ := h
      exact Or.inl ⟨rfl, by simp⟩

theorem runFrom_start_mem (pll : Nat) :
    ∀ (rest : List Line) (s : PState) (base : Nat) (p : Page),
      p ∈ (runFrom pll s base rest).out →
      (∃ i : Fin rest.length,
          occursIn "<page>".toList (rest.get i).text = true ∧
            p.start = some (base + byteSum (rest.take i.val))) ∨
        (pendingStart s = p.start ∧ s ≠ .idle) := by
  intro rest
  induction rest with
  | nil => intro s base p hp; simp [runFrom] at hp
  | cons l rest ih =>
    intro s base p hp
    rw [runFrom] at hp
    cases hstep : lineStep pll s l.text base with
    | none => rw [hstep] at hp; simp at hp
    | some r =>
      obtain ⟨s', em⟩ := r
      rw [hstep] at hp
      simp only [List.mem_append] at hp
      rcases hp with hmem | hmem
      · have hem : em = some p := by cases em <;> simp_all
        subst hem
        exact Or.inr (lineStep_emit_start pll s l.text base s' p hstep)
      · rcases ih s' (base + l.byteLen) p hmem with ⟨i, hin, hstart⟩ | ⟨hps, hne⟩
        · refine Or.inl ⟨⟨i.val + 1, Nat.succ_lt_succ i.isLt⟩, by simpa using hin, ?_⟩
          rw [hstart]
          congr 1
          simp [byteSum, Nat.add_assoc]
        · rcases lineStep_state_start pll s l.text base s' em hstep hne with
            ⟨hpp, hsne⟩ | ⟨rfl, hps', hinf⟩
          · exact Or.inr ⟨hpp.symm.trans hps, hsne⟩
          · refine Or.inl ⟨⟨0, by simp⟩, by simpa using hinf, ?_⟩
            rw [← hps, hps']
            simp [byteSum]

/-- Claim C2: for every record yielded by `page_generator`, there is an input
line containing the page-open marker such that the record's `startOffset` is
exactly the sum of the raw byte lengths of all lines strictly preceding that
line — the lengths taken before decoding (`pos = next_pos;
next_pos += len(line)` runs on the undecoded byte string). -/
theorem c2_start_offset_is_byte_sum (page_length_limit : Nat)
    (lines : List Line) (offset : Option Nat) (p : Page)
    (hp : p ∈ (page_generator page_length_limit lines offset).out) :
    ∃ i : Fin lines.length,
      occursIn "<page>".toList (lines.get i).text = true ∧
        p.start = some (byteSum (lines.take i.val)) := by
  rcases runFrom_start_mem page_length_limit lines .idle 0 p hp with
    ⟨i, hin, hstart⟩ | ⟨-, hne⟩
  · exact ⟨i, hin, by simpa using hstart⟩
  · exact absurd rfl hne

/-- Claim C2, witness: in `exGood` the page block starts on the second line,
after the 5-byte line `"junk\n"`, and the yielded record indeed carries
`startOffset = 5`. -/
theorem c2_witness :
    (⟨2, "B".toList, "hello".toList, some 5⟩ : Page) ∈
        (page_generator 0 exGood none).out ∧
      ∃ i : Fin exGood.length,
        occursIn "<page>".toList (exGood.get i).text = true ∧
          (some 5 : Option Nat) = some (byteSum (exGood.take i.val)) :=
  ⟨by decide,
   c2_start_offset_is_byte_sum 0 exGood none
     ⟨2, "B".toList, "hello".toList, some 5⟩ (by decide)⟩

theorem specLineStep_eq_of_some (pll : Nat) (s : PState) (line : List Char)
    (pos : Nat) (r : PState × Option Page)
    (h : lineStep pll s line pos = some r) :
    specLineStep pll s line pos = r := by
  cases s with
  | idle =>
    simp only [lineStep] at h
    simp only [specLineStep]
    split at h <;> simp_all
  | sawPage start =>
    simp only [lineStep] at h
    simp only [specLineStep]
    split at h <;> simp_all
  | sawTitle start t =>
    simp only [lineStep] at h
    simp only [specLineStep]
    split at h <;> simp_all
  | sawId start t i =>
    simp only [lineStep] at h
    simp only [specLineStep]
    split at h
    · split at h <;> simp_all
    · split at h <;> simp_all
  | accText start t i frags =>
    simp only [lineStep] at h
    simp only [specLineStep]
    split at h <;> simp_all

theorem runFrom_out_eq_spec (pll : Nat) :
    ∀ (rest : List Line) (s : PState) (base : Nat),
      (runFrom pll s base rest).err = false →
        (runFrom pll s base rest).out = specRunFrom pll s base rest := by
  intro rest
  induction rest with
  | nil => intro s base _; rfl
  | cons l rest ih =>
    intro s base herr
    rw [runFrom] at herr ⊢
    cases hstep : lineStep pll s l.text base with
    | none => rw [hstep] at herr; simp at herr
    | some r =>
      rw [specRunFrom, specLineStep_eq_of_some pll s l.text base r hstep]
      rw [hstep] at herr
      obtain ⟨s', em⟩ := r
      dsimp only at herr ⊢
      rw [ih s' (base + l.byteLen) herr]

/-- Claim C1, counterexample: on `exCrash` the code raises at the fourth line
(state `'id'`, line ends with `'</text>\n'`, inline text pattern unmatched)
and yields nothing, while the spec machine silently drops the malformed
candidate and goes on to complete a filter-accepted page — so the output is
not "exactly the filter-accepted complete pages" of the stream. -/
theorem c1_counterexample :
    (page_generator 0 exCrash none).err = true ∧
      (page_generator 0 exCrash none).out ≠ spec_page_generator 0 exCrash := by
  decide

/-- Claim C1, amended: whenever the run raises no error (no line consumed in
state `'id'` ends with `'</text>\n'` while the inline text pattern has no
match), the records yielded by `page_generator` are exactly the
filter-accepted complete pages of the stream as defined by the §4.2 spec
machine — in particular nothing is yielded for a page still in progress when
the stream ends. -/
theorem c1_amended_no_error_matches_spec (page_length_limit : Nat)
    (lines : List Line) (offset : Option Nat)
    (h : (page_generator page_length_limit lines offset).err = false) :
    (page_generator page_length_limit lines offset).out =
      spec_page_generator page_length_limit lines :=
  runFrom_out_eq_spec page_length_limit lines .idle 0 h

/-- Claim C1, witness: on `exGood` (one complete accepted page followed by
nothing, stream truncated right after it) the run raises no error and the
output matches the spec machine's. -/
theorem c1_witness :
    (page_generator 0 exGood none).err = false ∧
      (page_generator 0 exGood none).out = spec_page_generator 0 exGood :=
  ⟨by decide, c1_amended_no_error_matches_spec 0 exGood none (by decide)⟩

theorem lineOf_text (t : List Char) : (lineOf t).text = t := rfl

theorem lineOf_byteLen (t : List Char) : (lineOf t).byteLen = t.length := rfl

theorem afterTextOpen_textOpen (r : List Char) :
    afterTextOpen ("<text>".toList ++ r) = some r := rfl

theorem closeSuffix (cN : List Char) :
    "</text>\n".toList.isSuffixOf (cN ++ "</text>\n".toList) = true :=
  List.isSuffixOf_iff_suffix.mpr (List.suffix_append _ _)

theorem closeStrip (cN : List Char) :
    (cN ++ "</text>\n".toList).take ((cN ++ "</text>\n".toList).length - 8) = cN := by
  simp [List.take_left]

theorem runFrom_accText_run (pll start : Nat) (t i : List Char) :
    ∀ (mids : List (List Char)) (frags : List (List Char)) (cN : List Char)
      (base : Nat),
      (∀ m ∈ mids, "</text>\n".toList.isSuffixOf m = false) →
      runFrom pll (.accText start t i frags) base
          (mids.map lineOf ++ [lineOf (cN ++ "</text>\n".toList)]) =
        ⟨(finalize pll start t i ((frags ++ mids ++ [cN]).flatten)).2.toList,
         false⟩ := by
  intro mids
  induction mids with
  | nil =>
    intro frags cN base hm
    rw [List.map_nil, List.nil_append, runFrom]
    simp only [lineStep, lineOf, closeSuffix cN, closeStrip cN, if_true]
    rw [runFrom]
    simp
  | cons m ms ih =>
    intro frags cN base hm
    have hm1 : "</text>\n".toList.isSuffixOf m = false := hm m (by simp)
    have hms : ∀ x ∈ ms, "</text>\n".toList.isSuffixOf x = false :=
      fun x hx => hm x (by simp [hx])
    rw [List.map_cons, List.cons_append, runFrom]
    simp only [lineStep, lineOf_text, lineOf_byteLen]
    rw [hm1]
    simp only [Bool.false_eq_true, if_false]
    rw [ih (frags ++ [m]) cN (base + m.length) hms]
    simp [List.append_assoc]

/-- Claim C6, counterexample: the three-way split `"ab" / "mid\n" / "cd"`
accumulates to `rawText = "ab\nmid\ncd"`, but presenting the same content
inline between the markers on one line yields no record at all — the inline
pattern `(.*?)` cannot span the newlines the split introduced, so that run
raises instead of producing an identical record. -/
theorem c6_counterexample :
    (page_generator 0 exMulti none).out.map Page.text = ["ab\nmid\ncd".toList] ∧
      page_generator 0 exInline none = ⟨[], true⟩ := by
  decide

/-- Claim C6, amended: a text field split across `N` lines (opening marker on
line 1, closing marker ending line `N`) reaches `DONE` with `rawText` equal
to the concatenation of the accumulated fragments — the remainder of line 1
after the opening marker (with its newline), each intermediate line in full,
and line `N` up to but excluding the closing marker — and the record carries
exactly that string when the filter accepts it.  (The inline comparison of
the original claim cannot hold verbatim: the concatenated content contains
the line breaks, and an inline line with embedded newlines makes the code
raise, as the counterexample shows.) -/
theorem c6_amended_multiline_rawtext (page_length_limit start : Nat)
    (t i c1 : List Char) (mids : List (List Char)) (cN : List Char) (base : Nat)
    (h1 : "</text>\n".toList.isSuffixOf ("<text>".toList ++ c1 ++ ['\n']) = false)
    (h2 : ∀ m ∈ mids, "</text>\n".toList.isSuffixOf m = false) :
    runFrom page_length_limit (.sawId start t i) base
        (lineOf ("<text>".toList ++ c1 ++ ['\n']) ::
          (mids.map lineOf ++ [lineOf (cN ++ "</text>\n".toList)])) =
      ⟨if bad_page page_length_limit t ((c1 ++ ['\n']) ++ mids.flatten ++ cN)
          then []
        else [⟨digitsToNat i, t, (c1 ++ ['\n']) ++ mids.flatten ++ cN,
          some start⟩], false⟩ := by
  rw [runFrom]
  simp only [lineStep, lineOf_text, lineOf_byteLen]
  rw [h1]
  simp only [Bool.false_eq_true, if_false]
  rw [List.append_assoc, afterTextOpen_textOpen]
  simp only [Option.toList]
  rw [runFrom_accText_run page_length_limit start t i mids [c1 ++ ['\n']] cN
    (base + ("<text>".toList ++ (c1 ++ ['\n'])).length) h2]
  simp [finalize, List.flatten_append, List.append_assoc]
  split <;> rfl

/-- Claim C6, witness: the concrete split `"ab" / "mid\n" / "cd"` (N = 3)
reconstructs `rawText = "ab\nmid\ncd"` and is yielded. -/
theorem c6_witness :
    runFrom 0 (.sawId 7 "T".toList "7".toList) 0
        (lineOf ("<text>".toList ++ "ab".toList ++ ['\n']) ::
          (["mid\n".toList].map lineOf ++
            [lineOf ("cd".toList ++ "</text>\n".toList)])) =
      ⟨if bad_page 0 "T".toList
            (("ab".toList ++ ['\n']) ++ ["mid\n".toList].flatten ++ "cd".toList)
          then []
        else [⟨digitsToNat "7".toList, "T".toList,
          ("ab".toList ++ ['\n']) ++ ["mid\n".toList].flatten ++ "cd".toList,
          some 7⟩], false⟩ :=
  c6_amended_multiline_rawtext 0 7 "T".toList "7".toList "ab".toList
    ["mid\n".toList] "cd".toList 0 (by decide) (by decide)
